import Mathlib

/-!
Verification of the seat-reservation / payment core of the Cinema3D web
application (`app/__init__.py`, `app/blueprints/pago.py`, `app/db_migrations.py`,
`wsgi.py`) against its natural-language specification.

Python `Decimal` values are exact decimal rationals; we embed them as `ℚ`.
Machine integers of the source are unbounded Python ints; we embed them as
`ℤ` / `ℕ`.
-/

namespace Cinema

/-- Python `Decimal` rounding mode `ROUND_HALF_UP` applied to an exact
rational, producing an integer: round to the nearest integer, ties away
from zero. -/
def roundHalfUp (q : ℚ) : ℤ :=
  if 0 ≤ q then ⌊q + 1/2⌋ else -⌊-q + 1/2⌋

/-- `x.quantize(Decimal("0.01"), rounding=ROUND_HALF_UP)`: round to two
decimal places, half up. -/
def quantizeCents (q : ℚ) : ℚ :=
  (roundHalfUp (q * 100) : ℚ) / 100

/- ===================== Configuration (`app/__init__.py`) ===================== -/

/-- Parse status of an integer environment variable as `create_app` consumes it
with `int(os.getenv(NAME, default))`: the variable is absent (the default
applies), parses to a number, or is present but unparsable (Python `int(...)`
raises, which aborts `create_app`, i.e. startup). -/
inductive EnvInt where
  | unset
  | parsed (n : Nat)
  | unparsable
deriving DecidableEq

/-- `int(os.getenv(name, default))`: absent means default, unparsable raises. -/
def EnvInt.parseOr (e : EnvInt) (dflt : Nat) : Except Unit Nat :=
  match e with
  | .unset => .ok dflt
  | .parsed n => .ok n
  | .unparsable => .error ()

/-- The environment slice `create_app` reads for seat/price parameters.
`ticketPrice` carries, for a set variable, the later `Decimal(raw)` parse
result of its raw string (`none` when the string does not parse as a
`Decimal`); the outer `Option` is presence of the variable.  `create_app`
itself never parses `TICKET_PRICE` — it stores the raw string. -/
structure Env where
  seatRows : Option String
  seatCols : EnvInt
  seatMaxPerOrder : EnvInt
  holdTtlSeconds : EnvInt
  ticketPrice : Option (Option ℚ)
deriving DecidableEq

/-- The app configuration produced by `create_app` that the payment flow
consumes.  `ticketPrice` is the deferred `Decimal` parse result of the stored
`TICKET_PRICE` string (the default string `"5000"` parses to `5000`). -/
structure Config where
  seatRows : String
  seatCols : Nat
  seatMaxPerOrder : Nat
  holdTtlSeconds : Nat
  ticketPrice : Option ℚ
deriving DecidableEq

/-- The configuration-loading slice of `create_app` (`app/__init__.py`
lines 92–99): `SEAT_COLS`, `SEAT_MAX_PER_ORDER` and `HOLD_TTL_SECONDS` are
parsed with `int(...)` at startup — an unparsable value raises and startup
fails.  `SEAT_ROWS` and `TICKET_PRICE` are stored raw with no startup
validation. -/
def create_app (env : Env) : Except Unit Config :=
  match env.seatCols.parseOr 12 with
  | .error e => .error e
  | .ok cols =>
    match env.seatMaxPerOrder.parseOr 6 with
    | .error e => .error e
    | .ok maxPer =>
      match env.holdTtlSeconds.parseOr 600 with
      | .error e => .error e
      | .ok ttl =>
          .ok { seatRows := env.seatRows.getD "ABCDEFGHIJ"
                seatCols := cols
                seatMaxPerOrder := maxPer
                holdTtlSeconds := ttl
                ticketPrice := env.ticketPrice.getD (some 5000) }

/-- `_precio_entrada` (`pago.py` lines 71–80): `Decimal(raw)` on the configured
`TICKET_PRICE` string, with a silent fallback to `Decimal("5000")` when the
string does not parse (the `try/except` around `Decimal(raw)`). -/
def precio_entrada (cfg : Config) : ℚ :=
  cfg.ticketPrice.getD 5000

/- ===================== Session and catalog data ===================== -/

/-- One entry of `COMBOS_CATALOG` (`app/data/seed.py`): id, name, price. -/
structure Combo where
  id : Nat
  nombre : String
  precio : ℚ
deriving DecidableEq

/-- The `movie_selection` dict stored in the session; each key may be absent. -/
structure Seleccion where
  movieId : Option Nat
  fecha : Option String
  hora : Option String
  sala : Option String
  titulo : Option String
deriving DecidableEq

/-- The session keys the payment flow reads and writes.  `none` models an
absent key (`session.pop`/missing). -/
structure Session where
  seats : Option (List String)
  holdToken : Option String
  combos : Option (List Nat)
  movieSelection : Option Seleccion
deriving DecidableEq

/-- `_combos_from_session` (`pago.py` lines 54–58): the catalog entries whose
id occurs among the session's selected combo ids. -/
def combos_from_session (catalog : List Combo) (s : Session) : List Combo :=
  let ids := s.combos.getD []
  catalog.filter (fun c => decide (c.id ∈ ids))

/-- `_seats_from_session` (`pago.py` lines 66–68). -/
def seats_from_session (s : Session) : List String :=
  s.seats.getD []

/- ===================== Server-side totals (`pago.py` 83–102) ===================== -/

/-- Result triple of `_calcular_totales_server_side`. -/
structure Totales where
  totalEntradas : ℚ
  totalCombos : ℚ
  total : ℚ
deriving DecidableEq

/-- `_calcular_totales_server_side` (`pago.py` lines 83–102):
`total_entradas = (precio * len(seats)).quantize(0.01, HALF_UP)`,
`total_combos = Decimal(sum(precios)).quantize(0.01, HALF_UP)`,
`total = (total_entradas + total_combos).quantize(0.01, HALF_UP)`. -/
def calcular_totales_server_side (cfg : Config) (catalog : List Combo)
    (s : Session) : Totales :=
  let precioEnt := precio_entrada cfg
  let seats := seats_from_session s
  let combosSel := combos_from_session catalog s
  let totalEntradas := quantizeCents (precioEnt * (seats.length : ℚ))
  let totalCombos := quantizeCents ((combosSel.map (·.precio)).sum)
  let total := quantizeCents (totalEntradas + totalCombos)
  ⟨totalEntradas, totalCombos, total⟩

/-- The quote formula as §4.5 of the spec words it: entrada price × seat count
rounded half-up to the minor unit, plus the combo-price sum rounded half-up to
the minor unit, with the grand total rounded half-up again — three independent
roundings. -/
def spec_quote_three_roundings (price : ℚ) (seatCount : Nat)
    (comboPrices : List ℚ) : ℚ :=
  quantizeCents (quantizeCents (price * (seatCount : ℚ)) + quantizeCents comboPrices.sum)

/-- The alternative the spec rules out: a single rounding of the raw sum. -/
def quote_single_rounding (price : ℚ) (seatCount : Nat)
    (comboPrices : List ℚ) : ℚ :=
  quantizeCents (price * (seatCount : ℚ) + comboPrices.sum)

/-- `monto_cents` (`pago.py` line 192):
`int((total * 100).to_integral_value(rounding=ROUND_HALF_UP))`. -/
def monto_cents_of_total (total : ℚ) : ℤ :=
  roundHalfUp (total * 100)

/- ===================== Seats, showtimes, holds, reservations ===================== -/

/-- Seat identifiers are short codes such as `"C7"`. -/
abbrev Seat := String

/-- The showtime key `(movie_id, fecha, hora, sala)` exactly as the payment
flow passes it to `confirm_seats` (`seleccion.get(...)`, each possibly
absent). -/
structure Showtime where
  movieId : Option Nat
  fecha : Option String
  hora : Option String
  sala : Option String
deriving DecidableEq

/-- The showtime key built from the session's `movie_selection`. -/
def Seleccion.key (sel : Seleccion) : Showtime :=
  ⟨sel.movieId, sel.fecha, sel.hora, sel.sala⟩

/-- Modelled from the spec: `SeatHold` (§3) — the Hold Store implementation
(`app/db.py`) is not in the source slice, only its caller `pago.py` is; the
attributes follow the spec's data model (`token`, showtime key, seat set,
`created_at`, `expires_at = created_at + HOLD_TTL`). -/
structure SeatHold where
  token : String
  key : Showtime
  seats : List Seat
  createdAt : Nat
  expiresAt : Nat
deriving DecidableEq

/-- Modelled from the spec: `Reservation` (§3) — a seat permanently assigned
after successful payment, scoped by showtime key, linked to a transaction. -/
structure Reservation where
  key : Showtime
  seat : Seat
  trxId : Nat
  usuarioEmail : Option String
deriving DecidableEq

/-- Modelled from the spec: the shared durable seat state — the Hold Store
(§4.2) plus the Reservation Ledger (§4.3). -/
structure Store where
  holds : List SeatHold
  reservations : List Reservation
deriving DecidableEq

/-- The initial, empty seat state. -/
def Store.empty : Store := ⟨[], []⟩

/-- Modelled from the spec: a hold is unexpired at `now` when
`now < expires_at` (a hold with `expires_at ≤ now` is sweep-eligible,
§4.2). -/
def SeatHold.unexpired (now : Nat) (h : SeatHold) : Bool :=
  decide (now < h.expiresAt)

/-- All `(showtime_key, seat)` pairs of the Reservation Ledger. -/
def Store.resPairs (s : Store) : List (Showtime × Seat) :=
  s.reservations.map (fun r => (r.key, r.seat))

/-- Modelled from the spec: `seats_confirmed(showtime_key)` (§4.3) — the
ledger's seats for one showtime. -/
def Store.resSeats (s : Store) (key : Showtime) : List Seat :=
  (s.reservations.filter (fun r => decide (r.key = key))).map (·.seat)

/-- The seats covered by unexpired holds for one showtime. -/
def Store.heldSeats (s : Store) (key : Showtime) (now : Nat) : List Seat :=
  (s.holds.filter (fun h => decide (h.key = key) && h.unexpired now)).flatMap (·.seats)

/-- Modelled from the spec: Hold Store `place` (§4.2) — fails with
`SeatUnavailable` when any requested seat is already covered by another
unexpired hold or by a confirmed reservation for that showtime; the check and
the insert are one atomic all-or-nothing unit; the stored hold carries the
request's seat set (duplicates collapsed) and `expires_at = now + ttl`.
A token identifies one checkout attempt, so placing with a token replaces
that token's previous hold. -/
def Store.place (s : Store) (token : String) (key : Showtime)
    (seats : List Seat) (ttl : Nat) (now : Nat) : Except Unit (Store × SeatHold) :=
  let rest := s.holds.filter (fun h => decide (h.token ≠ token))
  let req := seats.dedup
  let taken : Seat → Bool := fun a =>
    rest.any (fun h => decide (h.key = key) && h.unexpired now && decide (a ∈ h.seats))
      || decide (a ∈ s.resSeats key)
  if req.any taken then .error ()
  else
    let h : SeatHold := ⟨token, key, req, now, now + ttl⟩
    .ok ({ s with holds := h :: rest }, h)

/-- Modelled from the spec: Hold Store `release(token)` (§4.2) — idempotent
removal of the token's hold. -/
def Store.release (s : Store) (token : String) : Store :=
  { s with holds := s.holds.filter (fun h => decide (h.token ≠ token)) }

/-- Modelled from the spec: `sweep_expired(now)` (§4.2) — removes every hold
with `expires_at ≤ now` and reports how many were removed. -/
def Store.sweep (s : Store) (now : Nat) : Store × Nat :=
  let keep := s.holds.filter (fun h => h.unexpired now)
  ({ s with holds := keep }, s.holds.length - keep.length)

/-- Modelled from the spec: the live hold for a token and showtime (§4.5
step 2) — token match, showtime match, unexpired.  `None` as token (no
`hold_token` in the session) finds nothing. -/
def Store.liveHold (s : Store) (token : Option String) (key : Showtime)
    (now : Nat) : Option SeatHold :=
  match token with
  | none => none
  | some t =>
      s.holds.find? (fun h => decide (h.token = t) && decide (h.key = key) && h.unexpired now)

/-- Modelled from the spec: `db.confirm_seats` (`app/db.py`, not in the source
slice) as §4.5 steps 2–4 and §4.3 `commit` describe it, with the result
protocol `pago.py` lines 223–235 relies on: an empty list when the token has
no live hold for the showtime, a raised `ValueError` when a seat is already
present in the ledger at commit time (all-or-nothing — the ledger is not
touched), and otherwise the atomic conversion of the hold into reservations
(hold released, the hold's seats returned). -/
def Store.confirm_seats (s : Store) (token : Option String) (key : Showtime)
    (usuarioEmail : Option String) (trxId : Nat) (now : Nat) :
    Except Unit (Store × List Seat) :=
  match s.liveHold token key now with
  | none => .ok (s, [])
  | some h =>
      if h.seats.any (fun a => decide (a ∈ s.resSeats h.key)) then .error ()
      else
        .ok ({ holds := s.holds.filter (fun x => decide (x.token ≠ h.token))
               reservations :=
                 s.reservations ++ h.seats.map (fun a => ⟨h.key, a, trxId, usuarioEmail⟩) },
             h.seats)

/-- Reachable seat states: everything the coordinator's operations can
produce from the empty store, observed at a non-decreasing clock. -/
inductive Store.Reach : Store → Nat → Prop where
  | init : Store.Reach Store.empty 0
  | tick {s now now'} : Store.Reach s now → now ≤ now' → Store.Reach s now'
  | place {s now s' h token key seats ttl} : Store.Reach s now →
      s.place token key seats ttl now = .ok (s', h) → Store.Reach s' now
  | confirm {s now s' seats token key email trxId} : Store.Reach s now →
      s.confirm_seats token key email trxId now = .ok (s', seats) → Store.Reach s' now
  | release {s now token} : Store.Reach s now → Store.Reach (s.release token) now
  | sweep {s now} : Store.Reach s now → Store.Reach (s.sweep now).1 now

/-- The internal inductive invariant of the seat state: every hold's seat set
has no duplicates, tokens are unique, unexpired holds of one showtime are
pairwise seat-disjoint, unexpired holds never overlap the ledger, and the
ledger has no duplicate `(showtime_key, seat)` pair. -/
structure Store.Inv (s : Store) (now : Nat) : Prop where
  holdsNodup : ∀ h ∈ s.holds, h.seats.Nodup
  tokensNodup : (s.holds.map (·.token)).Nodup
  holdsDisjoint : ∀ h1 ∈ s.holds, ∀ h2 ∈ s.holds, h1.token ≠ h2.token →
      h1.key = h2.key → h1.unexpired now → h2.unexpired now →
      ∀ a ∈ h1.seats, a ∉ h2.seats
  holdResDisjoint : ∀ h ∈ s.holds, h.unexpired now →
      ∀ a ∈ h.seats, (h.key, a) ∉ s.resPairs
  resNodup : s.resPairs.Nodup

/- ===================== Transactions and the payment POST flow ===================== -/

/-- The three transaction states (`'PENDIENTE'`, `'APROBADO'`, `'RECHAZADA'`
in the `estado` column). -/
inductive Estado where
  | pendiente
  | aprobado
  | rechazada
deriving DecidableEq

/-- One row of `transacciones` as the payment flow writes it (the audit
metadata columns — brand, last4, expiry, auth code, timestamp — do not affect
any verified property and are omitted). -/
structure Trx where
  id : Nat
  usuarioEmail : Option String
  montoCents : ℤ
  estado : Estado
deriving DecidableEq

/-- The fresh id `AUTOINCREMENT` assigns to the inserted row (strictly larger
than every existing id). -/
def nextTrxId (trxs : List Trx) : Nat :=
  (trxs.map (·.id)).foldr max 0 + 1

/-- `UPDATE transacciones SET estado=? WHERE id=?` (`pago.py` lines 237, 260,
282): an unconditional overwrite of the stored state — there is no check of
the current state and no error path. -/
def markTrx (trxs : List Trx) (id : Nat) (e : Estado) : List Trx :=
  trxs.map (fun t => if t.id = id then { t with estado := e } else t)

/-- The card data read from the POST form (`pago.py` lines 158–164).  `monto`
stands for any client-supplied amount field: it is part of the request but no
line of the handler reads it. -/
structure Form where
  email : String
  pan : String
  nombreTarjeta : String
  expMes : String
  expAnio : String
  cvv : String
  monto : String
deriving DecidableEq

/-- The observable outcome of the POST branch of `pago`. -/
inductive PagoResult where
  | missingSelection
  | validationFailed (errores : List String)
  | holdExpired (trxId : Nat)
  | seatConflict (trxId : Nat)
  | approved (trxId : Nat) (confirmados : List Seat)
deriving DecidableEq

/-- Whether the flow reached the fully successful path. -/
def PagoResult.isApproved : PagoResult → Bool
  | .approved _ _ => true
  | _ => false

/-- Final state of one POST request. -/
structure PagoOut where
  result : PagoResult
  store : Store
  trxs : List Trx
  sess : Session
deriving DecidableEq

/-- The POST branch of the `pago` route (`pago.py` lines 136–352), over
explicit state.  `validar` is the external card validator
(`app.service.payments.validar_tarjeta`), a collaborator outside the core:
it sees the form and the server-computed total, never a client amount.
QR/PDF/email generation are outward effects with no bearing on the verified
state and are not modelled. -/
def pagoPost (cfg : Config) (catalog : List Combo)
    (validar : Form → ℚ → List String)
    (store : Store) (trxs : List Trx) (sess : Session) (form : Form)
    (now : Nat) : PagoOut :=
  let t := calcular_totales_server_side cfg catalog sess
  let seats := seats_from_session sess
  match sess.movieSelection with
  | none => ⟨.missingSelection, store, trxs, sess⟩
  | some sel =>
    if seats.isEmpty then ⟨.missingSelection, store, trxs, sess⟩
    else
      let errores := validar form t.total
      if errores.isEmpty then
        let email := if form.email = "" then none else some form.email
        let monto := monto_cents_of_total t.total
        let trxId := nextTrxId trxs
        let trxs1 := trxs ++ [⟨trxId, email, monto, .pendiente⟩]
        match store.confirm_seats sess.holdToken sel.key email trxId now with
        | .error _ =>
            ⟨.seatConflict trxId, store, markTrx trxs1 trxId .rechazada, sess⟩
        | .ok (st', confirmados) =>
            if confirmados.isEmpty then
              ⟨.holdExpired trxId, st', markTrx trxs1 trxId .rechazada, sess⟩
            else
              ⟨.approved trxId confirmados, st', markTrx trxs1 trxId .aprobado,
               { sess with seats := none, holdToken := none, combos := none }⟩
      else ⟨.validationFailed errores, store, trxs, sess⟩

/- ===================== Database migration (`app/db_migrations.py`) ===================== -/

/-- The schema-level state of the SQLite database: the column list of
`transacciones` when the table exists, and existence of the auxiliary
tables. -/
structure Schema where
  transacciones : Option (List String)
  funciones : Bool
  combos : Bool
deriving DecidableEq

/-- The columns `migrate_add_mercadopago_support` adds one by one to an
existing `transacciones` table (`db_migrations.py` lines 32–52). -/
def mpNewColumns : List String :=
  ["monto_cents", "mp_preference_id", "mp_payment_id", "mp_status",
   "mp_status_detail", "monto_mp", "monto_neto_mp", "external_reference",
   "funcion_id", "pelicula", "fecha_funcion", "hora_funcion", "sala",
   "asientos_json", "combos_json", "notas", "ip_cliente", "user_agent",
   "fecha_actualizacion"]

/-- `ALTER TABLE transacciones ADD COLUMN c ...` with the
`sqlite3.OperationalError: duplicate column name` absorbed
(`db_migrations.py` lines 54–62): adding an existing column is a no-op. -/
def addColumn (cols : List String) (c : String) : List String :=
  if c ∈ cols then cols else cols ++ [c]

/-- The column list of the `CREATE TABLE transacciones` statement used when
the table does not exist yet (`db_migrations.py` lines 83–114). -/
def createTableColumns : List String :=
  ["id", "usuario_email", "monto_cents", "total_pesos", "estado",
   "funcion_id", "pelicula", "fecha_funcion", "hora_funcion", "sala",
   "asientos_json", "combos_json", "mp_preference_id", "mp_payment_id",
   "mp_status", "mp_status_detail", "monto_mp", "monto_neto_mp",
   "external_reference", "brand", "last4", "exp_mes", "exp_anio",
   "auth_code", "created_at", "fecha_actualizacion", "notas",
   "ip_cliente", "user_agent"]

/-- `migrate_add_mercadopago_support` (`db_migrations.py` lines 11–168) at the
schema level: when `transacciones` exists, add the MercadoPago columns one by
one (duplicate-column errors absorbed), then, when a legacy `email_cliente`
column is present, add `usuario_email`; when the table does not exist, create
it with the full column list.  The auxiliary tables are created with
`IF NOT EXISTS`.  Row-level sample-data inserts touch no schema. -/
def migrate_add_mercadopago_support (s : Schema) : Schema :=
  let t :=
    match s.transacciones with
    | some cols =>
        let cols1 := mpNewColumns.foldl addColumn cols
        let cols2 := if "email_cliente" ∈ cols1 then addColumn cols1 "usuario_email" else cols1
        some cols2
    | none => some createTableColumns
  { transacciones := t, funciones := true, combos := true }

/-- `check_migration_needed` (`db_migrations.py` lines 227–254): migration is
needed when `transacciones` does not exist or its `CREATE` statement lacks one
of `mp_preference_id`, `mp_payment_id`, `external_reference`. -/
def check_migration_needed (s : Schema) : Bool :=
  match s.transacciones with
  | none => true
  | some cols =>
      !(["mp_preference_id", "mp_payment_id", "external_reference"].all
          (fun c => decide (c ∈ cols)))

/- ===================== Arithmetic lemmas ===================== -/

theorem floor_int_add_half (w : ℤ) : ⌊(w : ℚ) + 1/2⌋ = w := by
  rw [add_comm, Int.floor_add_int]
  norm_num

/-- Rounding half-up is the identity on integers. -/
theorem roundHalfUp_intCast (z : ℤ) : roundHalfUp (z : ℚ) = z := by
  unfold roundHalfUp
  split
  · exact floor_int_add_half z
  · rw [show (-(z : ℚ)) = ((-z : ℤ) : ℚ) by push_cast; ring]
    rw [floor_int_add_half (-z)]
    ring

/-- `quantizeCents` always returns an integer number of cents. -/
theorem quantizeCents_mul_hundred (q : ℚ) :
    quantizeCents q * 100 = (roundHalfUp (q * 100) : ℚ) := by
  unfold quantizeCents
  field_simp

/- ===================== C5: three independent roundings ===================== -/

/-- C5: for every seat list, combo selection and configured ticket price, the
server-side total equals the spec's three-stage formula — the entradas
subtotal (ticket price × seat count, rounded half-up to two decimals) plus
the combos subtotal (sum of selected combo prices, rounded half-up to two
decimals), with the grand total rounded half-up again; and this three-rounding
pipeline is not the same function as a single rounding of the raw sum
(witnessed at ticket price 1.005, one seat, one combo at 2.005). -/
theorem total_is_three_stage_rounding :
    (∀ (cfg : Config) (catalog : List Combo) (s : Session),
      (calcular_totales_server_side cfg catalog s).total
        = spec_quote_three_roundings (precio_entrada cfg)
            (seats_from_session s).length
            ((combos_from_session catalog s).map (·.precio)))
    ∧ spec_quote_three_roundings (201/200) 1 [401/200]
        ≠ quote_single_rounding (201/200) 1 [401/200] := by
  constructor
  · intro cfg catalog s
    rfl
  · norm_num [spec_quote_three_roundings, quote_single_rounding, quantizeCents,
      roundHalfUp]

/- ===================== C10: monto_cents is exact ===================== -/

theorem monto_cents_of_quantized (q : ℚ) :
    ((monto_cents_of_total (quantizeCents q) : ℤ) : ℚ) = 100 * quantizeCents q := by
  unfold monto_cents_of_total quantizeCents
  rw [div_mul_cancel₀ _ (by norm_num : (100 : ℚ) ≠ 0), roundHalfUp_intCast]
  ring

/-- C10: the persisted `monto_cents` equals exactly 100 times the two-decimal
server-side total — because the total is already quantized to two decimal
places, `to_integral_value` with round-half-up on `total * 100` introduces no
additional rounding. -/
theorem monto_cents_is_hundred_times_total (cfg : Config) (catalog : List Combo)
    (s : Session) :
    ((monto_cents_of_total (calcular_totales_server_side cfg catalog s).total : ℤ) : ℚ)
      = 100 * (calcular_totales_server_side cfg catalog s).total :=
  monto_cents_of_quantized _

/- ===================== C7: startup validation of configuration ===================== -/

/-- C7 counterexample: with an unparsable `TICKET_PRICE` string, startup
(`create_app`) succeeds rather than failing, and request handling substitutes
the silent per-request fallback `Decimal("5000")` — refuting "an invalid value
is fatal at startup, never a per-request error" for `TICKET_PRICE`. -/
theorem ticket_price_fallback_exists :
    create_app ⟨none, .unset, .unset, .unset, some none⟩
        = .ok ⟨"ABCDEFGHIJ", 12, 6, 600, none⟩
    ∧ precio_entrada ⟨"ABCDEFGHIJ", 12, 6, 600, none⟩ = 5000 :=
  ⟨rfl, rfl⟩

/-- C7 amended: the integer parameters `SEAT_COLS`, `SEAT_MAX_PER_ORDER` and
`HOLD_TTL_SECONDS` are parsed once at startup and an unparsable value is fatal
at startup; `TICKET_PRICE`, however, is never validated at startup — whether
it parses has no effect on startup success — and an unparsable value is
silently replaced by `5000` on each request by `_precio_entrada`. -/
theorem startup_fatal_ints_ticket_price_fallback :
    (∀ env : Env,
      env.seatCols = .unparsable ∨ env.seatMaxPerOrder = .unparsable
        ∨ env.holdTtlSeconds = .unparsable →
      create_app env = .error ())
    ∧ (∀ (env : Env) (tp1 tp2 : Option (Option ℚ)),
        (create_app { env with ticketPrice := tp1 }).isOk
          = (create_app { env with ticketPrice := tp2 }).isOk)
    ∧ (∀ cfg : Config, cfg.ticketPrice = none → precio_entrada cfg = 5000) := by
  refine ⟨?_, ?_, ?_⟩
  · intro env hbad
    rcases hbad with hcol | hmax | httl
    · simp [create_app, hcol, EnvInt.parseOr]
    · cases hc : env.seatCols <;>
        simp [create_app, hc, hmax, EnvInt.parseOr]
    · cases hc : env.seatCols <;> cases hm : env.seatMaxPerOrder <;>
        simp [create_app, hc, hm, httl, EnvInt.parseOr]
  · intro env tp1 tp2
    cases hc : env.seatCols <;> cases hm : env.seatMaxPerOrder <;>
      cases ht : env.holdTtlSeconds <;>
      simp [create_app, hc, hm, ht, EnvInt.parseOr, Except.isOk, Except.toBool]
  · intro cfg hnone
    simp [precio_entrada, hnone]

/-- Witness for the amended C7 theorem at concrete inputs: an unparsable
`SEAT_COLS` is fatal at startup. -/
theorem startup_fatal_ints_witness :
    create_app ⟨none, .unparsable, .unset, .unset, none⟩ = .error () :=
  startup_fatal_ints_ticket_price_fallback.1 _ (Or.inl rfl)

/- ===================== C9: migration idempotence ===================== -/

theorem mem_addColumn {cols : List String} {c x : String} :
    x ∈ addColumn cols c ↔ x ∈ cols ∨ x = c := by
  unfold addColumn
  split
  · next hmem =>
      constructor
      · exact Or.inl
      · rintro (hx | rfl)
        · exact hx
        · exact hmem
  · simp [List.mem_append]

theorem mem_foldl_addColumn {l cols : List String} {x : String} :
    x ∈ l.foldl addColumn cols ↔ x ∈ cols ∨ x ∈ l := by
  induction l generalizing cols with
  | nil => simp
  | cons c l ih =>
      rw [List.foldl_cons, ih, mem_addColumn]
      constructor
      · rintro ((hx | rfl) | hx)
        · exact Or.inl hx
        · exact Or.inr (by simp)
        · exact Or.inr (by simp [hx])
      · rintro (hx | hx)
        · exact Or.inl (Or.inl hx)
        · rcases List.mem_cons.mp hx with rfl | hx
          · exact Or.inl (Or.inr rfl)
          · exact Or.inr hx

theorem foldl_addColumn_of_subset {l cols : List String}
    (h : ∀ c ∈ l, c ∈ cols) : l.foldl addColumn cols = cols := by
  induction l with
  | nil => rfl
  | cons c l ih =>
      rw [List.foldl_cons]
      have hc : addColumn cols c = cols := by
        unfold addColumn
        simp [h c (by simp)]
      rw [hc]
      exact ih fun d hd => h d (by simp [hd])

/-- The column list `migrate_add_mercadopago_support` produces for
`transacciones`. -/
theorem migrate_transacciones_eq (s : Schema) :
    migrate_add_mercadopago_support s
      = ⟨some (match s.transacciones with
               | some cols =>
                   let cols1 := mpNewColumns.foldl addColumn cols
                   if "email_cliente" ∈ cols1 then addColumn cols1 "usuario_email" else cols1
               | none => createTableColumns),
         true, true⟩ := by
  unfold migrate_add_mercadopago_support
  cases s.transacciones <;> rfl

theorem addColumn_of_mem {cols : List String} {c : String} (h : c ∈ cols) :
    addColumn cols c = cols := by
  unfold addColumn
  rw [if_pos h]

/-- C9: running the migration establishes `mp_preference_id`, `mp_payment_id`
and `external_reference` on `transacciones`, so `check_migration_needed`
afterwards returns `false`; and running the migration a second time changes no
schema (duplicate-column failures are absorbed by `addColumn`), making the
migration idempotent on any starting database. -/
theorem migration_sufficient_and_idempotent (s : Schema) :
    check_migration_needed (migrate_add_mercadopago_support s) = false
    ∧ migrate_add_mercadopago_support (migrate_add_mercadopago_support s)
        = migrate_add_mercadopago_support s := by
  have hmp : ∀ c ∈ ["mp_preference_id", "mp_payment_id", "external_reference"],
      c ∈ mpNewColumns := by decide
  have hmpCreate : ∀ c ∈ mpNewColumns, c ∈ createTableColumns := by decide
  have hemailCreate : "email_cliente" ∉ createTableColumns := by decide
  -- the migrated column list, in each starting case
  obtain ⟨B, hB, hsubB, hstable⟩ :
      ∃ B, migrate_add_mercadopago_support s = ⟨some B, true, true⟩
        ∧ (∀ c ∈ mpNewColumns, c ∈ B)
        ∧ (if "email_cliente" ∈ B then addColumn B "usuario_email" = B else True) := by
    cases hT : s.transacciones with
    | none =>
        refine ⟨createTableColumns, ?_, hmpCreate, ?_⟩
        · rw [migrate_transacciones_eq, hT]
        · rw [if_neg hemailCreate]
          trivial
    | some cols =>
        have hsub : ∀ c ∈ mpNewColumns, c ∈ mpNewColumns.foldl addColumn cols :=
          fun c hc => mem_foldl_addColumn.mpr (Or.inr hc)
        by_cases hec : "email_cliente" ∈ mpNewColumns.foldl addColumn cols
        · refine ⟨addColumn (mpNewColumns.foldl addColumn cols) "usuario_email", ?_, ?_, ?_⟩
          · rw [migrate_transacciones_eq, hT]
            simp only [if_pos hec]
          · exact fun c hc => mem_addColumn.mpr (Or.inl (hsub c hc))
          · rw [if_pos (mem_addColumn.mpr (Or.inl hec))]
            exact addColumn_of_mem (mem_addColumn.mpr (Or.inr rfl))
        · refine ⟨mpNewColumns.foldl addColumn cols, ?_, hsub, ?_⟩
          · rw [migrate_transacciones_eq, hT]
            simp only [if_neg hec]
          · rw [if_neg hec]
            trivial
  constructor
  · rw [hB]
    simp only [check_migration_needed, Bool.not_eq_false', List.all_eq_true,
      decide_eq_true_eq]
    exact fun c hc => hsubB c (hmp c hc)
  · rw [hB, migrate_transacciones_eq]
    simp only
    rw [foldl_addColumn_of_subset hsubB]
    by_cases hec : "email_cliente" ∈ B
    · rw [if_pos hec]
      rw [if_pos hec] at hstable
      rw [hstable]
    · rw [if_neg hec]

/- ===================== C1: the no-double-booking invariant ===================== -/

theorem SeatHold.unexpired_iff {now : Nat} {h : SeatHold} :
    h.unexpired now = true ↔ now < h.expiresAt := by
  simp [SeatHold.unexpired]

theorem SeatHold.unexpired_mono {now now' : Nat} (hle : now ≤ now') {x : SeatHold}
    (hx : x.unexpired now' = true) : x.unexpired now = true := by
  rw [SeatHold.unexpired_iff] at *
  omega

theorem mem_resPairs {s : Store} {k : Showtime} {a : Seat} :
    (k, a) ∈ s.resPairs ↔ a ∈ s.resSeats k := by
  simp only [Store.resPairs, Store.resSeats, List.mem_map, List.mem_filter,
    decide_eq_true_eq, Prod.mk.injEq]
  constructor
  · rintro ⟨r, hr, hk, ha⟩
    exact ⟨r, ⟨hr, hk⟩, ha⟩
  · rintro ⟨r, ⟨hr, hk⟩, ha⟩
    exact ⟨r, hr, hk, ha⟩

theorem Store.Inv.empty (now : Nat) : Store.Inv Store.empty now := by
  refine ⟨?_, ?_, ?_, ?_, ?_⟩ <;> simp [Store.empty, Store.resPairs]

theorem Store.Inv.mono {s : Store} {now now' : Nat} (inv : s.Inv now)
    (hle : now ≤ now') : s.Inv now' := by
  refine ⟨inv.holdsNodup, inv.tokensNodup, ?_, ?_, inv.resNodup⟩
  · intro h1 m1 h2 m2 ht hk u1 u2
    exact inv.holdsDisjoint h1 m1 h2 m2 ht hk
      (SeatHold.unexpired_mono hle u1) (SeatHold.unexpired_mono hle u2)
  · intro h hm u
    exact inv.holdResDisjoint h hm (SeatHold.unexpired_mono hle u)

/-- Removing holds (by any filter) preserves the invariant. -/
theorem Store.Inv.filter_holds {s : Store} {now : Nat} (inv : s.Inv now)
    (p : SeatHold → Bool) :
    Store.Inv ⟨s.holds.filter p, s.reservations⟩ now := by
  refine ⟨?_, ?_, ?_, ?_, inv.resNodup⟩
  · intro x hx
    exact inv.holdsNodup x (List.mem_of_mem_filter hx)
  · exact inv.tokensNodup.sublist ((List.filter_sublist _).map _)
  · intro h1 m1 h2 m2 ht hk u1 u2
    exact inv.holdsDisjoint h1 (List.mem_of_mem_filter m1)
      h2 (List.mem_of_mem_filter m2) ht hk u1 u2
  · intro h hm u
    exact inv.holdResDisjoint h (List.mem_of_mem_filter hm) u

theorem release_inv {s : Store} {now : Nat} (inv : s.Inv now) (token : String) :
    (s.release token).Inv now :=
  inv.filter_holds _

theorem sweep_inv {s : Store} {now : Nat} (inv : s.Inv now) :
    (s.sweep now).1.Inv now :=
  inv.filter_holds _

theorem place_inv {s : Store} {now : Nat} {tok : String} {key : Showtime}
    {seats : List Seat} {ttl : Nat} {s' : Store} {h : SeatHold}
    (inv : s.Inv now) (hp : s.place tok key seats ttl now = .ok (s', h)) :
    s'.Inv now := by
  simp only [Store.place] at hp
  split at hp
  · exact absurd hp (by simp)
  · next hguard =>
      simp only [Except.ok.injEq, Prod.mk.injEq] at hp
      obtain ⟨hp1, hp2⟩ := hp
      subst hp1
      subst hp2
      have hav : ∀ a ∈ seats.dedup,
          (∀ x ∈ s.holds.filter (fun h => decide (h.token ≠ tok)),
              x.key = key → x.unexpired now = true → a ∉ x.seats)
          ∧ a ∉ s.resSeats key := by
        intro a ha
        have hga : ¬ (((s.holds.filter (fun h => decide (h.token ≠ tok))).any
              (fun h => decide (h.key = key) && h.unexpired now && decide (a ∈ h.seats))
            || decide (a ∈ s.resSeats key)) = true) := by
          intro hcontra
          exact hguard (List.any_eq_true.mpr ⟨a, ha, hcontra⟩)
        constructor
        · intro x hx hxkey hxu hax
          apply hga
          rw [Bool.or_eq_true]
          refine Or.inl (List.any_eq_true.mpr ⟨x, hx, ?_⟩)
          rw [Bool.and_eq_true, Bool.and_eq_true]
          exact ⟨⟨by simp [hxkey], hxu⟩, by simp [hax]⟩
        · intro hres
          apply hga
          rw [Bool.or_eq_true]
          exact Or.inr (by simpa using hres)
      refine ⟨?_, ?_, ?_, ?_, inv.resNodup⟩
      · intro x hx
        rcases List.mem_cons.mp hx with rfl | hx
        · exact List.nodup_dedup seats
        · exact inv.holdsNodup x (List.mem_of_mem_filter hx)
      · rw [List.map_cons]
        refine List.Nodup.cons ?_ (inv.tokensNodup.sublist ((List.filter_sublist _).map _))
        intro hmem
        obtain ⟨x, hx, hxtok⟩ := List.mem_map.mp hmem
        have hne : decide (x.token ≠ tok) = true := (List.mem_filter.mp hx).2
        simp only [decide_eq_true_eq] at hne
        exact hne hxtok
      · intro h1 m1 h2 m2 ht hk u1 u2 a ha1
        rcases List.mem_cons.mp m1 with rfl | m1 <;>
          rcases List.mem_cons.mp m2 with rfl | m2
        · exact absurd rfl ht
        · exact (hav a ha1).1 h2 m2 hk.symm u2
        · intro ha2
          exact (hav a ha2).1 h1 m1 hk u1 ha1
        · exact inv.holdsDisjoint h1 (List.mem_of_mem_filter m1)
            h2 (List.mem_of_mem_filter m2) ht hk u1 u2 a ha1
      · intro x hx u a ha
        rcases List.mem_cons.mp hx with rfl | hx
        · rw [mem_resPairs]
          exact (hav a ha).2
        · exact inv.holdResDisjoint x (List.mem_of_mem_filter hx) u a ha

theorem liveHold_spec {s : Store} {token : Option String} {key : Showtime}
    {now : Nat} {h : SeatHold} (hl : s.liveHold token key now = some h) :
    h ∈ s.holds ∧ h.key = key ∧ h.unexpired now = true := by
  unfold Store.liveHold at hl
  cases token with
  | none => cases hl
  | some t =>
      have hmem := List.mem_of_find?_eq_some hl
      have hpred := List.find?_some hl
      simp only [Bool.and_eq_true, decide_eq_true_eq] at hpred
      exact ⟨hmem, hpred.1.2, hpred.2⟩

/-- `confirm_seats` when the token has no live hold: the empty result, state
untouched. -/
theorem confirm_seats_of_liveHold_none {s : Store} {token : Option String}
    {key : Showtime} {em : Option String} {id now : Nat}
    (hl : s.liveHold token key now = none) :
    s.confirm_seats token key em id now = .ok (s, []) := by
  unfold Store.confirm_seats
  rw [hl]

/-- `confirm_seats` when the token has a live hold: conflict check against the
ledger, then the atomic hold-to-reservations conversion. -/
theorem confirm_seats_of_liveHold_some {s : Store} {token : Option String}
    {key : Showtime} {em : Option String} {id now : Nat} {h : SeatHold}
    (hl : s.liveHold token key now = some h) :
    s.confirm_seats token key em id now
      = if h.seats.any (fun a => decide (a ∈ s.resSeats h.key)) then .error ()
        else .ok (⟨s.holds.filter (fun x => decide (x.token ≠ h.token)),
                   s.reservations ++ h.seats.map (fun a => ⟨h.key, a, id, em⟩)⟩,
                  h.seats) := by
  unfold Store.confirm_seats
  rw [hl]

theorem confirm_inv {s : Store} {now : Nat} {token : Option String}
    {key : Showtime} {em : Option String} {id : Nat} {s' : Store} {cs : List Seat}
    (inv : s.Inv now) (hc : s.confirm_seats token key em id now = .ok (s', cs)) :
    s'.Inv now := by
  cases hl : s.liveHold token key now with
  | none =>
      rw [confirm_seats_of_liveHold_none hl] at hc
      simp only [Except.ok.injEq, Prod.mk.injEq] at hc
      rw [← hc.1]
      exact inv
  | some h =>
      rw [confirm_seats_of_liveHold_some hl] at hc
      obtain ⟨hmem, hkey, hu⟩ := liveHold_spec hl
      split at hc
      · exact absurd hc (by simp)
      · next hconf =>
          simp only [Except.ok.injEq, Prod.mk.injEq] at hc
          obtain ⟨hs', hcs⟩ := hc
          rw [← hs']
          have hnoconf : ∀ a ∈ h.seats, a ∉ s.resSeats h.key := by
            intro a ha hres
            exact hconf (List.any_eq_true.mpr ⟨a, ha, by simpa using hres⟩)
          have hpairs : (Store.mk (s.holds.filter (fun x => decide (x.token ≠ h.token)))
              (s.reservations ++ h.seats.map (fun a => ⟨h.key, a, id, em⟩))).resPairs
              = s.resPairs ++ h.seats.map (fun a => (h.key, a)) := by
            simp only [Store.resPairs, List.map_append, List.map_map]
            rfl
          refine ⟨?_, ?_, ?_, ?_, ?_⟩
          · intro x hx
            exact inv.holdsNodup x (List.mem_of_mem_filter hx)
          · exact inv.tokensNodup.sublist ((List.filter_sublist _).map _)
          · intro h1 m1 h2 m2 ht hk u1 u2
            exact inv.holdsDisjoint h1 (List.mem_of_mem_filter m1)
              h2 (List.mem_of_mem_filter m2) ht hk u1 u2
          · intro x hx u a ha
            rw [hpairs]
            intro hmem'
            rcases List.mem_append.mp hmem' with hold | hnew
            · exact inv.holdResDisjoint x (List.mem_of_mem_filter hx) u a ha hold
            · obtain ⟨b, hb, hba⟩ := List.mem_map.mp hnew
              simp only [Prod.mk.injEq] at hba
              obtain ⟨hkx, hsx⟩ := hba
              subst hsx
              have hxtok : decide (x.token ≠ h.token) = true := (List.mem_filter.mp hx).2
              simp only [decide_eq_true_eq] at hxtok
              exact inv.holdsDisjoint x (List.mem_of_mem_filter hx) h hmem hxtok
                hkx.symm u hu b ha hb
          · rw [hpairs]
            refine inv.resNodup.append ((inv.holdsNodup h hmem).map ?_) ?_
            · intro a b hab
              exact congrArg Prod.snd hab
            · intro p hp hpnew
              obtain ⟨b, hb, hba⟩ := List.mem_map.mp hpnew
              subst hba
              exact hnoconf b hb (mem_resPairs.mp hp)

theorem inv_of_reach {s : Store} {now : Nat} (h : s.Reach now) : s.Inv now := by
  induction h with
  | init => exact Store.Inv.empty 0
  | tick _ hle ih => exact ih.mono hle
  | place _ hp ih => exact place_inv ih hp
  | confirm _ hc ih => exact confirm_inv ih hc
  | release _ ih => exact release_inv ih _
  | sweep _ ih => exact sweep_inv ih

/-- C1: for every showtime key and every reachable state, the seats covered by
unexpired holds and the seats in confirmed reservations are disjoint, the
reservations contain no duplicate `(showtime_key, seat)` pair, and each seat
is held by at most one unexpired hold — preserved by every operation (place,
confirm, release, sweep, and the passage of time). -/
theorem no_double_booking {s : Store} {now : Nat} (hreach : s.Reach now) :
    (∀ (key : Showtime) (a : Seat), a ∈ s.heldSeats key now → a ∉ s.resSeats key)
    ∧ s.resPairs.Nodup
    ∧ (∀ h1 ∈ s.holds, ∀ h2 ∈ s.holds, h1.unexpired now = true →
        h2.unexpired now = true → h1.key = h2.key →
        ∀ a ∈ h1.seats, a ∈ h2.seats → h1 = h2) := by
  have inv := inv_of_reach hreach
  refine ⟨?_, inv.resNodup, ?_⟩
  · intro key a ha hres
    obtain ⟨x, hx, hax⟩ := List.mem_flatMap.mp ha
    have hx' := List.mem_filter.mp hx
    simp only [Bool.and_eq_true, decide_eq_true_eq] at hx'
    obtain ⟨hxs, hxkey, hxu⟩ := hx'
    refine inv.holdResDisjoint x hxs hxu a hax ?_
    rw [hxkey, mem_resPairs]
    exact hres
  · intro h1 m1 h2 m2 u1 u2 hk a ha1 ha2
    by_cases htok : h1.token = h2.token
    · exact List.inj_on_of_nodup_map inv.tokensNodup m1 m2 htok
    · exact absurd ha2 (inv.holdsDisjoint h1 m1 h2 m2 htok hk u1 u2 a ha1)

/- ===================== The payment flow: transaction lemmas ===================== -/

theorem le_foldr_max {l : List Nat} {a : Nat} (h : a ∈ l) : a ≤ l.foldr max 0 := by
  induction l with
  | nil => cases h
  | cons x l ih =>
      rw [List.foldr_cons]
      rcases List.mem_cons.mp h with rfl | h'
      · exact le_max_left _ _
      · exact le_trans (ih h') (le_max_right _ _)

/-- The `AUTOINCREMENT` id of the inserted row is fresh. -/
theorem nextTrxId_fresh {trxs : List Trx} {t : Trx} (h : t ∈ trxs) :
    t.id ≠ nextTrxId trxs := by
  have hle : t.id ≤ (trxs.map (fun x => x.id)).foldr max 0 :=
    le_foldr_max (List.mem_map_of_mem _ h)
  unfold nextTrxId
  omega

/-- Marking a freshly appended transaction touches no pre-existing row. -/
theorem markTrx_append_fresh (trxs : List Trx) (t : Trx) (e : Estado)
    (hfresh : ∀ u ∈ trxs, u.id ≠ t.id) :
    markTrx (trxs ++ [t]) t.id e = trxs ++ [{ t with estado := e }] := by
  unfold markTrx
  rw [List.map_append]
  congr 1
  · have hmap : trxs.map (fun u => if u.id = t.id then { u with estado := e } else u)
        = trxs.map id :=
      List.map_congr_left (fun u hu => by rw [if_neg (hfresh u hu)]; rfl)
    rw [hmap, List.map_id]
  · simp

/-- Complete case analysis of the POST branch of `pago`: exactly one of the
five outcomes happens, with the corresponding state. -/
theorem pagoPost_cases (cfg : Config) (catalog : List Combo)
    (validar : Form → ℚ → List String) (store : Store) (trxs : List Trx)
    (sess : Session) (form : Form) (now : Nat) :
    let out := pagoPost cfg catalog validar store trxs sess form now
    let T := calcular_totales_server_side cfg catalog sess
    let email := if form.email = "" then none else some form.email
    let tNew : Trx := ⟨nextTrxId trxs, email, monto_cents_of_total T.total, .pendiente⟩
    (out = ⟨.missingSelection, store, trxs, sess⟩
        ∧ (sess.movieSelection = none ∨ (seats_from_session sess).isEmpty = true))
    ∨ (∃ e, e ≠ [] ∧ validar form T.total = e
        ∧ out = ⟨.validationFailed e, store, trxs, sess⟩)
    ∨ (∃ sel, sess.movieSelection = some sel
        ∧ store.confirm_seats sess.holdToken sel.key email (nextTrxId trxs) now = .error ()
        ∧ out = ⟨.seatConflict (nextTrxId trxs), store,
                 markTrx (trxs ++ [tNew]) (nextTrxId trxs) .rechazada, sess⟩)
    ∨ (∃ sel st', sess.movieSelection = some sel
        ∧ store.confirm_seats sess.holdToken sel.key email (nextTrxId trxs) now = .ok (st', [])
        ∧ out = ⟨.holdExpired (nextTrxId trxs), st',
                 markTrx (trxs ++ [tNew]) (nextTrxId trxs) .rechazada, sess⟩)
    ∨ (∃ sel st' cs, sess.movieSelection = some sel ∧ cs ≠ []
        ∧ store.confirm_seats sess.holdToken sel.key email (nextTrxId trxs) now = .ok (st', cs)
        ∧ out = ⟨.approved (nextTrxId trxs) cs, st',
                 markTrx (trxs ++ [tNew]) (nextTrxId trxs) .aprobado,
                 { sess with seats := none, holdToken := none, combos := none }⟩) := by
  simp only [pagoPost]
  cases hsel : sess.movieSelection with
  | none => exact Or.inl ⟨rfl, Or.inl rfl⟩
  | some sel =>
      dsimp only
      by_cases hseats : (seats_from_session sess).isEmpty = true
      · rw [if_pos hseats]
        exact Or.inl ⟨rfl, Or.inr hseats⟩
      · rw [if_neg hseats]
        by_cases herr : (validar form
            (calcular_totales_server_side cfg catalog sess).total).isEmpty = true
        · rw [if_pos herr]
          cases hc : (store.confirm_seats sess.holdToken sel.key
              (if form.email = "" then none else some form.email)
              (nextTrxId trxs) now) with
          | error e =>
              refine Or.inr (Or.inr (Or.inl ⟨sel, rfl, ?_, rfl⟩))
              rw [hc]
          | ok p =>
              obtain ⟨st', confirmados⟩ := p
              by_cases hne : confirmados.isEmpty = true
              · rw [List.isEmpty_iff] at hne
                subst hne
                exact Or.inr (Or.inr (Or.inr (Or.inl ⟨sel, st', rfl, hc, by rfl⟩)))
              · refine Or.inr (Or.inr (Or.inr (Or.inr ⟨sel, st', confirmados, rfl, ?_, hc, ?_⟩)))
                · intro hnil
                  exact hne (by rw [hnil]; rfl)
                · dsimp only
                  rw [if_neg hne]
        · rw [if_neg herr]
          refine Or.inr (Or.inl ⟨_, ?_, rfl, rfl⟩)
          intro hnil
          exact herr (by rw [hnil]; rfl)

/-- `confirm_seats` succeeding with an empty list leaves the ledger
untouched. -/
theorem confirm_seats_ok_empty_res {s : Store} {token : Option String}
    {key : Showtime} {em : Option String} {id now : Nat} {st' : Store}
    (hc : s.confirm_seats token key em id now = .ok (st', [])) :
    st'.reservations = s.reservations := by
  cases hl : s.liveHold token key now with
  | none =>
      rw [confirm_seats_of_liveHold_none hl] at hc
      simp only [Except.ok.injEq, Prod.mk.injEq] at hc
      rw [← hc.1]
  | some h =>
      rw [confirm_seats_of_liveHold_some hl] at hc
      split at hc
      · exact absurd hc (by simp)
      · simp only [Except.ok.injEq, Prod.mk.injEq] at hc
        obtain ⟨hs', hcs⟩ := hc
        rw [← hs']
        simp [← hcs]

/-- A nonempty `confirm_seats` success is exactly the conversion of the
token's live hold. -/
theorem confirm_seats_ok_nonempty {s : Store} {token : Option String}
    {key : Showtime} {em : Option String} {id now : Nat} {st' : Store}
    {cs : List Seat} (hc : s.confirm_seats token key em id now = .ok (st', cs))
    (hne : cs ≠ []) :
    ∃ h, s.liveHold token key now = some h ∧ cs = h.seats
      ∧ st'.holds = s.holds.filter (fun x => decide (x.token ≠ h.token))
      ∧ st'.reservations
          = s.reservations ++ h.seats.map (fun a => ⟨h.key, a, id, em⟩) := by
  cases hl : s.liveHold token key now with
  | none =>
      rw [confirm_seats_of_liveHold_none hl] at hc
      simp only [Except.ok.injEq, Prod.mk.injEq] at hc
      exact absurd hc.2.symm hne
  | some h =>
      rw [confirm_seats_of_liveHold_some hl] at hc
      split at hc
      · exact absurd hc (by simp)
      · simp only [Except.ok.injEq, Prod.mk.injEq] at hc
        obtain ⟨hs', hcs⟩ := hc
        exact ⟨h, rfl, hcs.symm, by rw [← hs'], by rw [← hs']⟩

/- ===================== C2: confirm attempts end terminal ===================== -/

/-- C2: whenever a confirm attempt fails because the hold is missing or
expired (hold-expired) or because a seat was grabbed by a competitor
(seat-conflict), the already-created transaction is set to the terminal state
RECHAZADA and no seats are committed to the Reservation Ledger; whenever it
succeeds, the transaction ends APROBADO with exactly the live hold's seats
committed.  A created transaction is never left PENDIENTE on a collision
error and the ledger is never left in a mixed state. -/
theorem confirm_attempts_end_terminal (cfg : Config) (catalog : List Combo)
    (validar : Form → ℚ → List String) (store : Store) (trxs : List Trx)
    (sess : Session) (form : Form) (now : Nat) :
    (∀ id : Nat,
      (pagoPost cfg catalog validar store trxs sess form now).result = .holdExpired id
        ∨ (pagoPost cfg catalog validar store trxs sess form now).result = .seatConflict id →
      (∃ t, (pagoPost cfg catalog validar store trxs sess form now).trxs = trxs ++ [t]
          ∧ t.id = id ∧ t.estado = .rechazada)
      ∧ (pagoPost cfg catalog validar store trxs sess form now).store.reservations
          = store.reservations)
    ∧ (∀ (id : Nat) (cs : List Seat),
        (pagoPost cfg catalog validar store trxs sess form now).result = .approved id cs →
        ∃ t sel h,
          (pagoPost cfg catalog validar store trxs sess form now).trxs = trxs ++ [t]
          ∧ t.id = id ∧ t.estado = .aprobado
          ∧ sess.movieSelection = some sel
          ∧ store.liveHold sess.holdToken sel.key now = some h
          ∧ cs = h.seats ∧ cs ≠ []
          ∧ (pagoPost cfg catalog validar store trxs sess form now).store.reservations
              = store.reservations
                  ++ cs.map (fun a => ⟨h.key, a, id, t.usuarioEmail⟩)) := by
  have hmark : ∀ e, markTrx (trxs ++ [⟨nextTrxId trxs,
        (if form.email = "" then none else some form.email),
        monto_cents_of_total (calcular_totales_server_side cfg catalog sess).total,
        .pendiente⟩]) (nextTrxId trxs) e
      = trxs ++ [⟨nextTrxId trxs,
        (if form.email = "" then none else some form.email),
        monto_cents_of_total (calcular_totales_server_side cfg catalog sess).total, e⟩] :=
    fun e => markTrx_append_fresh trxs _ e (fun u hu => nextTrxId_fresh hu)
  rcases pagoPost_cases cfg catalog validar store trxs sess form now with
      ⟨hout, _⟩ | ⟨e, hne, hval, hout⟩ | ⟨sel, hsel, hc, hout⟩
      | ⟨sel, st', hsel, hc, hout⟩ | ⟨sel, st', cs, hsel, hne, hc, hout⟩
  · exact ⟨fun id hid => by rw [hout] at hid; simp at hid,
      fun id cs hid => by rw [hout] at hid; simp at hid⟩
  · exact ⟨fun id hid => by rw [hout] at hid; simp at hid,
      fun id cs hid => by rw [hout] at hid; simp at hid⟩
  · constructor
    · intro id hid
      rw [hout] at hid
      simp at hid
      subst hid
      rw [hout]
      exact ⟨⟨_, hmark .rechazada, rfl, rfl⟩, rfl⟩
    · intro id cs hid
      rw [hout] at hid
      simp at hid
  · constructor
    · intro id hid
      rw [hout] at hid
      simp at hid
      subst hid
      rw [hout]
      exact ⟨⟨_, hmark .rechazada, rfl, rfl⟩, confirm_seats_ok_empty_res hc⟩
    · intro id cs hid
      rw [hout] at hid
      simp at hid
  · constructor
    · intro id hid
      rw [hout] at hid
      simp at hid
    · intro id cs' hid
      rw [hout] at hid
      simp at hid
      obtain ⟨hid1, hid2⟩ := hid
      subst hid1
      subst hid2
      obtain ⟨h, hl, hcs, hholds, hres⟩ := confirm_seats_ok_nonempty hc hne
      rw [hout]
      refine ⟨_, sel, h, hmark .aprobado, rfl, rfl, hsel, hl, hcs, hne, ?_⟩
      rw [hcs]
      exact hres

/-- Witness for C2 at a concrete input: an attempt with no hold token ends
with a persisted RECHAZADA transaction and an unchanged ledger. -/
theorem confirm_attempts_end_terminal_witness :
    (∃ t, (pagoPost ⟨"ABCDEFGHIJ", 12, 6, 600, some 50⟩ [] (fun _ _ => [])
        Store.empty []
        ⟨some ["A1"], none, none, some ⟨some 1, some "2025-10-15", some "20:00",
          some "Sala 1", some "Pelicula"⟩⟩
        ⟨"a@b.c", "4111111111111111", "A B", "12", "2030", "123", "999"⟩ 0).trxs
          = [] ++ [t]
      ∧ t.id = 1 ∧ t.estado = .rechazada)
    ∧ (pagoPost ⟨"ABCDEFGHIJ", 12, 6, 600, some 50⟩ [] (fun _ _ => [])
        Store.empty []
        ⟨some ["A1"], none, none, some ⟨some 1, some "2025-10-15", some "20:00",
          some "Sala 1", some "Pelicula"⟩⟩
        ⟨"a@b.c", "4111111111111111", "A B", "12", "2030", "123", "999"⟩ 0).store.reservations
        = Store.empty.reservations :=
  (confirm_attempts_end_terminal ⟨"ABCDEFGHIJ", 12, 6, 600, some 50⟩ [] (fun _ _ => [])
      Store.empty []
      ⟨some ["A1"], none, none, some ⟨some 1, some "2025-10-15", some "20:00",
        some "Sala 1", some "Pelicula"⟩⟩
      ⟨"a@b.c", "4111111111111111", "A B", "12", "2030", "123", "999"⟩ 0).1 1
    (Or.inl rfl)

/- ===================== C3: terminal states and the update primitive ===================== -/

/-- C3 counterexample: the state-update primitive of the source is the
unconditional `UPDATE transacciones SET estado=? WHERE id=?`; invoking it on a
transaction that is already in the terminal state APROBADO silently overwrites
the stored state with RECHAZADA instead of failing with `InvalidTransition` —
no such error exists anywhere in the code. -/
theorem mark_overwrites_terminal_state :
    markTrx [⟨1, none, 100, .aprobado⟩] 1 .rechazada = [⟨1, none, 100, .rechazada⟩]
    ∧ (⟨1, none, 100, .aprobado⟩ : Trx).estado ≠ .pendiente :=
  ⟨rfl, by decide⟩

/-- C3 amended: within the payment flow each transaction is transitioned at
most once — a POST either leaves the transaction table unchanged or appends
exactly one new transaction and leaves it in a terminal (non-PENDIENTE)
state, never touching pre-existing rows; but the update primitive itself is
an unconditional overwrite with no `InvalidTransition` check. -/
theorem transactions_transitioned_once (cfg : Config) (catalog : List Combo)
    (validar : Form → ℚ → List String) (store : Store) (trxs : List Trx)
    (sess : Session) (form : Form) (now : Nat) :
    (pagoPost cfg catalog validar store trxs sess form now).trxs = trxs
    ∨ ∃ tNew, (pagoPost cfg catalog validar store trxs sess form now).trxs
          = trxs ++ [tNew]
        ∧ tNew.estado ≠ Estado.pendiente := by
  have hmark : ∀ e, markTrx (trxs ++ [⟨nextTrxId trxs,
        (if form.email = "" then none else some form.email),
        monto_cents_of_total (calcular_totales_server_side cfg catalog sess).total,
        .pendiente⟩]) (nextTrxId trxs) e
      = trxs ++ [⟨nextTrxId trxs,
        (if form.email = "" then none else some form.email),
        monto_cents_of_total (calcular_totales_server_side cfg catalog sess).total, e⟩] :=
    fun e => markTrx_append_fresh trxs _ e (fun u hu => nextTrxId_fresh hu)
  rcases pagoPost_cases cfg catalog validar store trxs sess form now with
      ⟨hout, _⟩ | ⟨e, hne, hval, hout⟩ | ⟨sel, hsel, hc, hout⟩
      | ⟨sel, st', hsel, hc, hout⟩ | ⟨sel, st', cs, hsel, hne, hc, hout⟩
  · rw [hout]
    exact Or.inl rfl
  · rw [hout]
    exact Or.inl rfl
  · rw [hout]
    exact Or.inr ⟨_, hmark .rechazada, by simp⟩
  · rw [hout]
    exact Or.inr ⟨_, hmark .rechazada, by simp⟩
  · rw [hout]
    exact Or.inr ⟨_, hmark .aprobado, by simp⟩

/- ===================== C4: audit-trail transaction creation ===================== -/

/-- C4 counterexample: a card-validation failure returns before any
transaction is created — no RECHAZADA transaction is persisted, refuting "a
validation failure still leaves a persisted transaction". -/
theorem validation_failure_leaves_no_transaction :
    pagoPost ⟨"ABCDEFGHIJ", 12, 6, 600, some 50⟩ [] (fun _ _ => ["tarjeta invalida"])
        Store.empty []
        ⟨some ["A1"], none, none, some ⟨some 1, some "2025-10-15", some "20:00",
          some "Sala 1", some "Pelicula"⟩⟩
        ⟨"a@b.c", "4111111111111111", "A B", "12", "2030", "123", "999"⟩ 0
      = ⟨.validationFailed ["tarjeta invalida"], Store.empty, [],
         ⟨some ["A1"], none, none, some ⟨some 1, some "2025-10-15", some "20:00",
           some "Sala 1", some "Pelicula"⟩⟩⟩ :=
  rfl

/-- C4 amended: every attempt that passes card validation creates and
persists one transaction (born PENDIENTE) before any Reservation Ledger
mutation — the ledger never changes without a persisted transaction, and a
confirm failure after creation still leaves the transaction persisted in
RECHAZADA; a card-validation failure, however, returns before the transaction
insert, leaving no audit row and no state change. -/
theorem trx_created_before_ledger_mutation (cfg : Config) (catalog : List Combo)
    (validar : Form → ℚ → List String) (store : Store) (trxs : List Trx)
    (sess : Session) (form : Form) (now : Nat) :
    (∀ e, (pagoPost cfg catalog validar store trxs sess form now).result
          = .validationFailed e →
        (pagoPost cfg catalog validar store trxs sess form now).trxs = trxs
        ∧ (pagoPost cfg catalog validar store trxs sess form now).store = store)
    ∧ ((pagoPost cfg catalog validar store trxs sess form now).store ≠ store →
        ∃ t, (pagoPost cfg catalog validar store trxs sess form now).trxs
            = trxs ++ [t])
    ∧ (∀ id, (pagoPost cfg catalog validar store trxs sess form now).result
            = .holdExpired id
          ∨ (pagoPost cfg catalog validar store trxs sess form now).result
            = .seatConflict id →
        ∃ t, (pagoPost cfg catalog validar store trxs sess form now).trxs
            = trxs ++ [t] ∧ t.estado = .rechazada) := by
  have hmark : ∀ e, markTrx (trxs ++ [⟨nextTrxId trxs,
        (if form.email = "" then none else some form.email),
        monto_cents_of_total (calcular_totales_server_side cfg catalog sess).total,
        .pendiente⟩]) (nextTrxId trxs) e
      = trxs ++ [⟨nextTrxId trxs,
        (if form.email = "" then none else some form.email),
        monto_cents_of_total (calcular_totales_server_side cfg catalog sess).total, e⟩] :=
    fun e => markTrx_append_fresh trxs _ e (fun u hu => nextTrxId_fresh hu)
  rcases pagoPost_cases cfg catalog validar store trxs sess form now with
      ⟨hout, _⟩ | ⟨e, hne, hval, hout⟩ | ⟨sel, hsel, hc, hout⟩
      | ⟨sel, st', hsel, hc, hout⟩ | ⟨sel, st', cs, hsel, hne, hc, hout⟩ <;>
    rw [hout] <;> refine ⟨?_, ?_, ?_⟩
  · intro e hid
    simp at hid
  · intro hst
    exact absurd rfl hst
  · intro id hid
    simp at hid
  · intro e' hid
    exact ⟨rfl, rfl⟩
  · intro hst
    exact absurd rfl hst
  · intro id hid
    simp at hid
  · intro e hid
    simp at hid
  · intro hst
    exact ⟨_, hmark .rechazada⟩
  · intro id hid
    exact ⟨_, hmark .rechazada, rfl⟩
  · intro e hid
    simp at hid
  · intro hst
    exact ⟨_, hmark .rechazada⟩
  · intro id hid
    exact ⟨_, hmark .rechazada, rfl⟩
  · intro e hid
    simp at hid
  · intro hst
    exact ⟨_, hmark .aprobado⟩
  · intro id hid
    simp at hid

/-- Witness for the amended C4 theorem: the validation-failure branch of the
concrete run above leaves the transaction table and the store untouched. -/
theorem trx_created_before_ledger_mutation_witness :
    (pagoPost ⟨"ABCDEFGHIJ", 12, 6, 600, some 50⟩ []
        (fun _ _ => ["tarjeta invalida"]) Store.empty []
        ⟨some ["A1"], none, none, some ⟨some 1, some "2025-10-15", some "20:00",
          some "Sala 1", some "Pelicula"⟩⟩
        ⟨"a@b.c", "4111111111111111", "A B", "12", "2030", "123", "999"⟩ 0).trxs = []
    ∧ (pagoPost ⟨"ABCDEFGHIJ", 12, 6, 600, some 50⟩ []
        (fun _ _ => ["tarjeta invalida"]) Store.empty []
        ⟨some ["A1"], none, none, some ⟨some 1, some "2025-10-15", some "20:00",
          some "Sala 1", some "Pelicula"⟩⟩
        ⟨"a@b.c", "4111111111111111", "A B", "12", "2030", "123", "999"⟩ 0).store
        = Store.empty :=
  (trx_created_before_ledger_mutation ⟨"ABCDEFGHIJ", 12, 6, 600, some 50⟩ []
      (fun _ _ => ["tarjeta invalida"]) Store.empty []
      ⟨some ["A1"], none, none, some ⟨some 1, some "2025-10-15", some "20:00",
        some "Sala 1", some "Pelicula"⟩⟩
      ⟨"a@b.c", "4111111111111111", "A B", "12", "2030", "123", "999"⟩ 0).1
    ["tarjeta invalida"] rfl

/- ===================== C6: the amount never comes from the client ===================== -/

/-- Any transaction the POST flow creates carries the server-computed amount:
`monto_cents` of the server-side total, a function of session and
configuration only — never of the form. -/
theorem created_trx_monto (cfg : Config) (catalog : List Combo)
    (validar : Form → ℚ → List String) (store : Store) (trxs : List Trx)
    (sess : Session) (form : Form) (now : Nat) (t : Trx)
    (ht : t ∈ (pagoPost cfg catalog validar store trxs sess form now).trxs)
    (hnew : t ∉ trxs) :
    t.montoCents
      = monto_cents_of_total (calcular_totales_server_side cfg catalog sess).total := by
  have hmark : ∀ e, markTrx (trxs ++ [⟨nextTrxId trxs,
        (if form.email = "" then none else some form.email),
        monto_cents_of_total (calcular_totales_server_side cfg catalog sess).total,
        .pendiente⟩]) (nextTrxId trxs) e
      = trxs ++ [⟨nextTrxId trxs,
        (if form.email = "" then none else some form.email),
        monto_cents_of_total (calcular_totales_server_side cfg catalog sess).total, e⟩] :=
    fun e => markTrx_append_fresh trxs _ e (fun u hu => nextTrxId_fresh hu)
  rcases pagoPost_cases cfg catalog validar store trxs sess form now with
      ⟨hout, _⟩ | ⟨e, hne, hval, hout⟩ | ⟨sel, hsel, hc, hout⟩
      | ⟨sel, st', hsel, hc, hout⟩ | ⟨sel, st', cs, hsel, hne, hc, hout⟩ <;>
    rw [hout] at ht
  · exact absurd ht hnew
  · exact absurd ht hnew
  · rw [show (PagoOut.mk (PagoResult.seatConflict (nextTrxId trxs)) store
          (markTrx (trxs ++ [⟨nextTrxId trxs,
            (if form.email = "" then none else some form.email),
            monto_cents_of_total (calcular_totales_server_side cfg catalog sess).total,
            .pendiente⟩]) (nextTrxId trxs) .rechazada) sess).trxs
        = trxs ++ [⟨nextTrxId trxs,
            (if form.email = "" then none else some form.email),
            monto_cents_of_total (calcular_totales_server_side cfg catalog sess).total,
            .rechazada⟩] from hmark .rechazada] at ht
    rcases List.mem_append.mp ht with h1 | h1
    · exact absurd h1 hnew
    · rw [List.mem_singleton.mp h1]
  · rw [show (PagoOut.mk (PagoResult.holdExpired (nextTrxId trxs)) st'
          (markTrx (trxs ++ [⟨nextTrxId trxs,
            (if form.email = "" then none else some form.email),
            monto_cents_of_total (calcular_totales_server_side cfg catalog sess).total,
            .pendiente⟩]) (nextTrxId trxs) .rechazada) sess).trxs
        = trxs ++ [⟨nextTrxId trxs,
            (if form.email = "" then none else some form.email),
            monto_cents_of_total (calcular_totales_server_side cfg catalog sess).total,
            .rechazada⟩] from hmark .rechazada] at ht
    rcases List.mem_append.mp ht with h1 | h1
    · exact absurd h1 hnew
    · rw [List.mem_singleton.mp h1]
  · rw [show (PagoOut.mk (PagoResult.approved (nextTrxId trxs) cs) st'
          (markTrx (trxs ++ [⟨nextTrxId trxs,
            (if form.email = "" then none else some form.email),
            monto_cents_of_total (calcular_totales_server_side cfg catalog sess).total,
            .pendiente⟩]) (nextTrxId trxs) .aprobado)
          { sess with seats := none, holdToken := none, combos := none }).trxs
        = trxs ++ [⟨nextTrxId trxs,
            (if form.email = "" then none else some form.email),
            monto_cents_of_total (calcular_totales_server_side cfg catalog sess).total,
            .aprobado⟩] from hmark .aprobado] at ht
    rcases List.mem_append.mp ht with h1 | h1
    · exact absurd h1 hnew
    · rw [List.mem_singleton.mp h1]

/-- C6: the persisted `monto_cents` is computed solely from server-side state
(session contents and configuration): two POSTs that agree on session and
configuration but differ in any client-supplied form field (including any
amount field, which no line of the handler reads) persist the identical
`monto_cents`. -/
theorem monto_cents_ignores_client_form (cfg : Config) (catalog : List Combo)
    (validar : Form → ℚ → List String) (store : Store) (trxs : List Trx)
    (sess : Session) (now : Nat) (f1 f2 : Form) (t1 t2 : Trx)
    (h1 : t1 ∈ (pagoPost cfg catalog validar store trxs sess f1 now).trxs)
    (h1' : t1 ∉ trxs)
    (h2 : t2 ∈ (pagoPost cfg catalog validar store trxs sess f2 now).trxs)
    (h2' : t2 ∉ trxs) :
    t1.montoCents = t2.montoCents := by
  rw [created_trx_monto cfg catalog validar store trxs sess f1 now t1 h1 h1',
    created_trx_monto cfg catalog validar store trxs sess f2 now t2 h2 h2']

/-- Witness for C6 at concrete inputs: two runs whose forms differ only in the
client-supplied amount field persist the same `monto_cents`. -/
theorem monto_cents_ignores_client_form_witness :
    (⟨1, some "a@b.c",
      monto_cents_of_total (calcular_totales_server_side
        ⟨"ABCDEFGHIJ", 12, 6, 600, some 50⟩ []
        ⟨some ["A1"], none, none, some ⟨some 1, some "2025-10-15", some "20:00",
          some "Sala 1", some "Pelicula"⟩⟩).total,
      .rechazada⟩ : Trx).montoCents
    = (⟨1, some "a@b.c",
      monto_cents_of_total (calcular_totales_server_side
        ⟨"ABCDEFGHIJ", 12, 6, 600, some 50⟩ []
        ⟨some ["A1"], none, none, some ⟨some 1, some "2025-10-15", some "20:00",
          some "Sala 1", some "Pelicula"⟩⟩).total,
      .rechazada⟩ : Trx).montoCents :=
  monto_cents_ignores_client_form ⟨"ABCDEFGHIJ", 12, 6, 600, some 50⟩ []
    (fun _ _ => []) Store.empty []
    ⟨some ["A1"], none, none, some ⟨some 1, some "2025-10-15", some "20:00",
      some "Sala 1", some "Pelicula"⟩⟩ 0
    ⟨"a@b.c", "4111111111111111", "A B", "12", "2030", "123", "1"⟩
    ⟨"a@b.c", "4111111111111111", "A B", "12", "2030", "123", "999999"⟩
    _ _ (List.Mem.head _) (List.not_mem_nil _) (List.Mem.head _) (List.not_mem_nil _)

/- ===================== C8: session keys cleared only on approval ===================== -/

/-- C8: the POST handler removes the session keys `seats`, `hold_token` and
`combos` exactly on the fully successful (approved) path; on every failure
return (missing selection, card-validation errors, expired hold, seat
conflict) the session is left unchanged, so a retry sees the same
selection. -/
theorem session_cleared_only_on_approval (cfg : Config) (catalog : List Combo)
    (validar : Form → ℚ → List String) (store : Store) (trxs : List Trx)
    (sess : Session) (form : Form) (now : Nat) :
    (pagoPost cfg catalog validar store trxs sess form now).sess
      = if (pagoPost cfg catalog validar store trxs sess form now).result.isApproved
        then { sess with seats := none, holdToken := none, combos := none }
        else sess := by
  rcases pagoPost_cases cfg catalog validar store trxs sess form now with
      ⟨hout, _⟩ | ⟨e, hne, hval, hout⟩ | ⟨sel, hsel, hc, hout⟩
      | ⟨sel, st', hsel, hc, hout⟩ | ⟨sel, st', cs, hsel, hne, hc, hout⟩ <;>
    rw [hout] <;> rfl

/- ===================== C1 witness ===================== -/

/-- Witness for C1 at a concrete reachable state: after placing a hold on
seats C7 and C8 at time 5 with TTL 600, the no-double-booking invariant
holds. -/
theorem no_double_booking_witness :
    (∀ (key : Showtime) (a : Seat),
        a ∈ (Store.mk [⟨"tok", ⟨some 1, some "2025-10-15", some "20:00", some "Sala 1"⟩,
            ["C7", "C8"], 5, 605⟩] []).heldSeats key 5 →
        a ∉ (Store.mk [⟨"tok", ⟨some 1, some "2025-10-15", some "20:00", some "Sala 1"⟩,
            ["C7", "C8"], 5, 605⟩] []).resSeats key)
    ∧ (Store.mk [⟨"tok", ⟨some 1, some "2025-10-15", some "20:00", some "Sala 1"⟩,
        ["C7", "C8"], 5, 605⟩] []).resPairs.Nodup
    ∧ (∀ h1 ∈ (Store.mk [⟨"tok", ⟨some 1, some "2025-10-15", some "20:00", some "Sala 1"⟩,
          ["C7", "C8"], 5, 605⟩] []).holds,
       ∀ h2 ∈ (Store.mk [⟨"tok", ⟨some 1, some "2025-10-15", some "20:00", some "Sala 1"⟩,
          ["C7", "C8"], 5, 605⟩] []).holds,
        h1.unexpired 5 = true → h2.unexpired 5 = true → h1.key = h2.key →
        ∀ a ∈ h1.seats, a ∈ h2.seats → h1 = h2) :=
  no_double_booking
    (Store.Reach.place (Store.Reach.tick Store.Reach.init (Nat.zero_le 5))
      (show Store.empty.place "tok"
          ⟨some 1, some "2025-10-15", some "20:00", some "Sala 1"⟩
          ["C7", "C8"] 600 5
        = .ok (Store.mk [⟨"tok", ⟨some 1, some "2025-10-15", some "20:00", some "Sala 1"⟩,
            ["C7", "C8"], 5, 605⟩] [],
          ⟨"tok", ⟨some 1, some "2025-10-15", some "20:00", some "Sala 1"⟩,
            ["C7", "C8"], 5, 605⟩) from rfl))

/-- Witness for C5's universally quantified part at a concrete input. -/
theorem total_is_three_stage_rounding_witness :
    (calcular_totales_server_side ⟨"ABCDEFGHIJ", 12, 6, 600, some 50⟩ []
        ⟨some ["A1"], none, none, none⟩).total
      = spec_quote_three_roundings
          (precio_entrada ⟨"ABCDEFGHIJ", 12, 6, 600, some 50⟩)
          (seats_from_session ⟨some ["A1"], none, none, none⟩).length
          ((combos_from_session [] ⟨some ["A1"], none, none, none⟩).map (·.precio)) :=
  total_is_three_stage_rounding.1 ⟨"ABCDEFGHIJ", 12, 6, 600, some 50⟩ []
    ⟨some ["A1"], none, none, none⟩

/-- Witness for the amended C3 theorem at a concrete input. -/
theorem transactions_transitioned_once_witness :
    (pagoPost ⟨"ABCDEFGHIJ", 12, 6, 600, some 50⟩ []
        (fun _ _ => ["tarjeta invalida"]) Store.empty []
        ⟨some ["A1"], none, none, some ⟨some 1, some "2025-10-15", some "20:00",
          some "Sala 1", some "Pelicula"⟩⟩
        ⟨"a@b.c", "4111111111111111", "A B", "12", "2030", "123", "999"⟩ 0).trxs = []
    ∨ ∃ tNew, (pagoPost ⟨"ABCDEFGHIJ", 12, 6, 600, some 50⟩ []
        (fun _ _ => ["tarjeta invalida"]) Store.empty []
        ⟨some ["A1"], none, none, some ⟨some 1, some "2025-10-15", some "20:00",
          some "Sala 1", some "Pelicula"⟩⟩
        ⟨"a@b.c", "4111111111111111", "A B", "12", "2030", "123", "999"⟩ 0).trxs
          = [] ++ [tNew]
        ∧ tNew.estado ≠ Estado.pendiente :=
  transactions_transitioned_once ⟨"ABCDEFGHIJ", 12, 6, 600, some 50⟩ []
    (fun _ _ => ["tarjeta invalida"]) Store.empty []
    ⟨some ["A1"], none, none, some ⟨some 1, some "2025-10-15", some "20:00",
      some "Sala 1", some "Pelicula"⟩⟩
    ⟨"a@b.c", "4111111111111111", "A B", "12", "2030", "123", "999"⟩ 0

end Cinema
